import Mathlib

/-!
Verification development for the personal-website photo-stacks backend.

The repository implements three request handlers (read, write,
generate-signed-urls) over a key-value store and an object-store URL
signer.  This file gives a shallow embedding of the handler logic:

* the Joi request-body schema of the read handler
  (lambda/media/read/schemas.ts) is translated into a Lean function;
* the three handlers (lambda/media/read/index.ts,
  lambda/media/write/index.ts, lambda/media/generate-signed-urls/index.ts)
  are translated into total Lean functions over oracles for the external
  collaborators (DynamoDB document client, S3 URL signer, uuid generator);
* JavaScript promise joining (Promise.all) is modelled explicitly with a
  completion-order parameter so that order-independence of the positional
  merge can be stated and proved.

Numbers are modelled as Int: every value the handlers compare
(timestamps, limits) is an integer in all claims under consideration, and
the Joi comparisons (greater, min, max) restricted to integers agree with
Int order.  Store and signer failures are opaque strings, mirroring the
handlers, which log the cause and surface only a generic message.
-/

/-! ## A model of JavaScript promise joining

`Promise.all` starts from a list of already-issued promises, here a list
of `Except` values (each promise eventually settles with a value or a
rejection).  The join resolves positionally with all values if every
promise fulfills; otherwise it rejects with the rejection of whichever
failing promise completes first.  The completion order is modelled as a
list of indices `sched`; the handlers discard the rejection value, which
is what makes their responses independent of `sched`. -/

namespace JsAsync

/-- If every promise fulfilled, the list of their values, positionally. -/
def allOk {α : Type} : List (Except String α) → Option (List α)
  | [] => some []
  | Except.ok a :: rest => (allOk rest).map (fun as => a :: as)
  | Except.error _ :: _ => none

/-- The rejection of the first (in completion order `sched`) rejected promise. -/
def firstRejection {α : Type} (sched : List Nat) (ps : List (Except String α)) : Option String :=
  sched.findSome? (fun i =>
    match ps.get? i with
    | some (Except.error e) => some e
    | _ => none)

/-- The first rejection in positional order (fallback when `sched` does not
cover the failing index). -/
def anyRejection {α : Type} (ps : List (Except String α)) : Option String :=
  ps.findSome? (fun p =>
    match p with
    | Except.error e => some e
    | Except.ok _ => none)

/-- `Promise.all`, parametrised by the completion order `sched`. -/
def promiseAllSched {α : Type} (sched : List Nat) (ps : List (Except String α)) :
    Except String (List α) :=
  match allOk ps with
  | some rs => Except.ok rs
  | none => Except.error ((firstRejection sched ps).getD ((anyRejection ps).getD ""))

end JsAsync

/-! ## The read handler, lambda/media/read/index.ts -/

namespace MediaRead

/-- A JSON field value as far as the Joi number schema is concerned. -/
inductive JVal
  | num (n : Int)
  | nonNum
deriving DecidableEq

/-- The raw (parsed but unvalidated) read request body; each field may be
absent. -/
structure RawReadBody where
  stackLimit : Option JVal
  startTimestamp : Option JVal
  endTimestamp : Option JVal
deriving DecidableEq

/-- The validated read request body (interface RequestBody). -/
structure RequestBody where
  stackLimit : Int
  startTimestamp : Int
  endTimestamp : Int
deriving DecidableEq

/-- Validation of `endTimestamp` per
`Joi.number().greater(Joi.ref('startTimestamp')).default(() => Date.now()).optional()`.
When the field is absent Joi applies the default without running the
rules on it (Joi defaults are not validated), so the `greater` check is
only applied to supplied values. -/
def endCheck (now stackLimit startTimestamp : Int) (e : Option JVal) :
    Except String RequestBody :=
  match e with
  | none => Except.ok ⟨stackLimit, startTimestamp, now⟩
  | some JVal.nonNum => Except.error "\"endTimestamp\" must be a number"
  | some (JVal.num en) =>
    if en ≤ startTimestamp then Except.error "endTimestamp must be greater than startTimestamp"
    else Except.ok ⟨stackLimit, startTimestamp, en⟩

/-- The Joi schema of lambda/media/read/schemas.ts, as the function
`requestBodySchema.validate` restricted to the first error message
(abortEarly, keys in schema order).  The `number.base` message for
`stackLimit` reads "stackLimit must be a string" in the source. -/
def requestBodySchemaValidate (now : Int) (raw : RawReadBody) : Except String RequestBody :=
  match raw.stackLimit with
  | none => Except.error "stackLimit is required"
  | some JVal.nonNum => Except.error "stackLimit must be a string"
  | some (JVal.num stackLimit) =>
    if stackLimit ≤ 0 then Except.error "stackLimit must be greater than 0"
    else
      match raw.startTimestamp with
      | some JVal.nonNum => Except.error "\"startTimestamp\" must be a number"
      | some (JVal.num s) =>
        if s < 0 then Except.error "startTimestamp must be a non-negative number"
        else endCheck now stackLimit s raw.endTimestamp
      | none => endCheck now stackLimit 0 raw.endTimestamp

/-- Errors flowing to the handler's catch block: `ValidationError`
(carrying statusCode 400 by construction, common/errors.ts) or any other
exception. -/
inductive HandlerError
  | validationErr (message : String)
  | other (message : String)
deriving DecidableEq

/-- Outcome of `JSON.parse` on a present request body. -/
inductive ReadParsed
  | invalidJson
  | parsed (raw : RawReadBody)
deriving DecidableEq

/-- The API Gateway event: `body` is absent (falsy) or a string whose
parse outcome is given. -/
structure ReadEvent where
  body : Option ReadParsed
deriving DecidableEq

/-- `parseRequestBody` of the read handler. -/
def parseRequestBody (now : Int) (event : ReadEvent) : Except HandlerError RequestBody :=
  match event.body with
  | none => Except.error (HandlerError.validationErr "Request body is missing.")
  | some ReadParsed.invalidJson => Except.error (HandlerError.validationErr "Invalid JSON format.")
  | some (ReadParsed.parsed raw) =>
    match requestBodySchemaValidate now raw with
    | Except.error msg => Except.error (HandlerError.validationErr ("Invalid request: " ++ msg))
    | Except.ok v => Except.ok v

/-- An item of the StackMetadata table: the handler only inspects
`stackId` (possibly absent, and the empty string is falsy in the
`!stack.stackId` check); the remaining attributes ride along opaquely. -/
structure StackItem where
  stackId : Option String
  attrs : List (String × String)
deriving DecidableEq

/-- An item of the MediaMetadata table; never inspected by the read
handler. -/
abbrev MediaItem := List (String × String)

/-- DynamoDB query output for the stack query (`Items` is optional in the
client's type). -/
structure StackQueryOut where
  Items : Option (List StackItem)
deriving DecidableEq

/-- DynamoDB query output for a media query. -/
structure MediaQueryOut where
  Items : Option (List MediaItem)
deriving DecidableEq

/-- The store oracle: `stackQ limit start end` is the settled result of
`queryStackMetadataTable`, `mediaQ stackId` of `queryMediaMetadataTable`. -/
structure ReadEnv where
  stackQ : Int → Int → Int → Except String StackQueryOut
  mediaQ : String → Except String MediaQueryOut

/-- One `{stack, media}` pair of the success response; `media` is `none`
when the JS value is `undefined` (JSON.stringify then drops the key). -/
structure StackMediaPair where
  stack : StackItem
  media : Option (List MediaItem)
deriving DecidableEq

/-- The JSON body of a read response. -/
inductive ReadBodyJson
  | message (message : String)
  | data (stackAndMediaData : List StackMediaPair)
deriving DecidableEq

/-- An API Gateway response of the read handler. -/
structure ReadResponse where
  statusCode : Nat
  body : ReadBodyJson
deriving DecidableEq

/-- `createErrorResponse` of the read handler. -/
def createErrorResponse (statusCode : Nat) (message : String) : ReadResponse :=
  { statusCode := statusCode, body := ReadBodyJson.message message }

/-- Which store queries an invocation issued (observational trace used to
state "never reaches the store"). -/
structure ReadTrace where
  stackQueries : List (Int × Int × Int)
  mediaQueries : List String
deriving DecidableEq

/-- `stacks.map((stack) => { if (!stack.stackId) throw ...; return
queryMediaMetadataTable(stack.stackId); })`: issues one media query per
stack in order until a stack without a (truthy) `stackId` throws.
Returns the stackIds actually queried and either the synchronous throw or
the list of issued promises. -/
def buildMediaPromises (env : ReadEnv) :
    List StackItem → List String × Except String (List (Except String MediaQueryOut))
  | [] => ([], Except.ok [])
  | s :: rest =>
    match s.stackId with
    | none => ([], Except.error "stackId field is missing from stack")
    | some id =>
      if id = "" then ([], Except.error "stackId field is missing from stack")
      else
        let r := buildMediaPromises env rest
        (id :: r.1,
          match r.2 with
          | Except.ok ps => Except.ok (env.mediaQ id :: ps)
          | Except.error e => Except.error e)

/-- `stacks.map((stack, index) => ({ stack, media: mediaResponses[index].Items }))`:
pairs each stack with the `Items` of the response at the same index (a
missing index would be a TypeError, caught by the handler's catch-all). -/
def combine : List StackItem → List MediaQueryOut → Except String (List StackMediaPair)
  | [], _ => Except.ok []
  | _ :: _, [] => Except.error "TypeError: undefined has no properties"
  | s :: ss, r :: rs =>
    match combine ss rs with
    | Except.ok pairs => Except.ok (⟨s, r.Items⟩ :: pairs)
    | Except.error e => Except.error e

/-- The media fan-out stage of the handler (handler lines 86-108): build
the per-stack promises, join them, merge positionally. -/
def mediaFanout (env : ReadEnv) (sched : List Nat) (q : Int × Int × Int)
    (sl : List StackItem) : ReadResponse × ReadTrace :=
  match buildMediaPromises env sl with
  | (issued, Except.error _) =>
    (createErrorResponse 500 "Internal server error.", ⟨[q], issued⟩)
  | (issued, Except.ok ps) =>
    match JsAsync.promiseAllSched sched ps with
    | Except.error _ => (createErrorResponse 500 "Internal server error.", ⟨[q], issued⟩)
    | Except.ok rs =>
      match combine sl rs with
      | Except.error _ => (createErrorResponse 500 "Internal server error.", ⟨[q], issued⟩)
      | Except.ok pairs =>
        ({ statusCode := 200, body := ReadBodyJson.data pairs }, ⟨[q], issued⟩)

/-- The handler after a successful parse (handler lines 71-108): stack
query, empty check, media fan-out. -/
def afterParse (env : ReadEnv) (sched : List Nat) (rb : RequestBody) :
    ReadResponse × ReadTrace :=
  match env.stackQ rb.stackLimit rb.startTimestamp rb.endTimestamp with
  | Except.error _ =>
    (createErrorResponse 500 "Internal server error.",
      ⟨[(rb.stackLimit, rb.startTimestamp, rb.endTimestamp)], []⟩)
  | Except.ok out =>
    if (out.Items.getD []).isEmpty then
      (createErrorResponse 404 "No stacks found!",
        ⟨[(rb.stackLimit, rb.startTimestamp, rb.endTimestamp)], []⟩)
    else
      mediaFanout env sched (rb.stackLimit, rb.startTimestamp, rb.endTimestamp)
        (out.Items.getD [])

/-- The read handler (lambda/media/read/index.ts, `handler`): `now` is the
validation-time clock, `env` the store oracle, `sched` the completion
order of the media fan-out.  Also returns the trace of store queries
issued. -/
def handler (now : Int) (env : ReadEnv) (sched : List Nat) (event : ReadEvent) :
    ReadResponse × ReadTrace :=
  match parseRequestBody now event with
  | Except.error (HandlerError.validationErr m) => (createErrorResponse 400 m, ⟨[], []⟩)
  | Except.error (HandlerError.other _) =>
    (createErrorResponse 500 "Internal server error.", ⟨[], []⟩)
  | Except.ok rb => afterParse env sched rb

/-- The stackId the handler queries media with (total projection; only
used under the hypothesis that the stack has a non-empty id). -/
def sid (s : StackItem) : String := s.stackId.getD ""

/-- The settled media query result for a stack (total projection; only
used under the hypothesis that the query fulfilled). -/
def mqRes (env : ReadEnv) (s : StackItem) : MediaQueryOut :=
  match env.mediaQ (sid s) with
  | Except.ok r => r
  | Except.error _ => ⟨none⟩

/-- The response envelope every read invocation satisfies. -/
def goodReadResponse (r : ReadResponse) : Prop :=
  (r.statusCode = 200 ∨ r.statusCode = 400 ∨ r.statusCode = 404 ∨ r.statusCode = 500) ∧
  (r.statusCode ≠ 200 → ∃ m, r.body = ReadBodyJson.message m)

end MediaRead

/-! ## The write handler, lambda/media/write/index.ts -/

namespace MediaWrite

/-- interface ImageSrc. -/
structure ImageSrc where
  thumbnail : String
  full : String
deriving DecidableEq

/-- interface Media of the write request body. -/
structure Media where
  mediaId : String
  alternativeText : Option String
  imageSrc : ImageSrc
  mediaType : String
deriving DecidableEq

/-- interface RequestBody of the write handler. -/
structure RequestBody where
  stackId : String
  caption : String
  uploadTimestamp : Int
  location : Option String
  media : List Media
deriving DecidableEq

/-- The item `saveStackMetadata` writes (field order as in the source's
`Item` literal). -/
structure StackRecord where
  caption : String
  stackId : String
  location : Option String
  uploadTimestamp : Int
deriving DecidableEq

/-- The item `saveMediaMetadata` writes. -/
structure MediaRecord where
  mediaId : String
  stackId : String
  alternativeText : Option String
  imageSrc : ImageSrc
  sequenceNumber : Nat
  mediaType : String
deriving DecidableEq

/-- The two DynamoDB tables, as append-only association lists keyed by
`stackId` respectively `mediaId` (the tables' partition keys). -/
structure Store where
  stackTable : List (String × StackRecord)
  mediaTable : List (String × MediaRecord)
deriving DecidableEq

/-- Whether an item with the given key exists (the
`attribute_not_exists(id)` condition reads this). -/
def tableHas {α : Type} (tbl : List (String × α)) (k : String) : Bool :=
  tbl.any (fun e => e.1 == k)

/-- Point lookup by key. -/
def tableGet {α : Type} (tbl : List (String × α)) (k : String) : Option α :=
  (tbl.find? (fun e => e.1 == k)).map (fun e => e.2)

/-- Outcome of one conditional put as seen at the store. -/
inductive PutOutcome
  | inserted
  | alreadyExists
  | failed
deriving DecidableEq

/-- A conditional put (`put` with
`ConditionExpression: attribute_not_exists(id)`): injected dependency
failures (`fault`) reject without writing; an existing key rejects with
ConditionalCheckFailedException and leaves the table unchanged; otherwise
the item is inserted. -/
def conditionalPut {α : Type} (tbl : List (String × α)) (k : String) (v : α)
    (fault : Bool) : List (String × α) × PutOutcome :=
  if fault then (tbl, PutOutcome.failed)
  else if tableHas tbl k then (tbl, PutOutcome.alreadyExists)
  else (tbl ++ [(k, v)], PutOutcome.inserted)

/-- `putItem`: swallows the ConditionalCheckFailedException (idempotent
skip), rethrows every other failure. -/
def putItem (outcome : PutOutcome) : Except String Unit :=
  match outcome with
  | PutOutcome.inserted => Except.ok ()
  | PutOutcome.alreadyExists => Except.ok ()
  | PutOutcome.failed => Except.error "AWSError"

/-- Fault-injection oracle for the store: which puts fail with a
non-conditional error. -/
structure WriteEnv where
  stackFault : Bool
  mediaFault : String → Bool

/-- The `media.map((mediaItem, index) => saveMediaMetadata(mediaItem,
stackId, index))` fan-out: one conditional put per media item, with
`sequenceNumber` equal to the array index.  The puts are independent
single-item writes on distinct keys, so any linearisation yields this
fold. -/
def saveMediaAll (env : WriteEnv) (sid : String) :
    List (String × MediaRecord) → Nat → List Media →
      List (String × MediaRecord) × List PutOutcome
  | tbl, _, [] => (tbl, [])
  | tbl, i, m :: rest =>
    let r := conditionalPut tbl m.mediaId
      ⟨m.mediaId, sid, m.alternativeText, m.imageSrc, i, m.mediaType⟩
      (env.mediaFault m.mediaId)
    let rr := saveMediaAll env sid r.1 (i + 1) rest
    (rr.1, r.2 :: rr.2)

/-- All puts of one validated write request: the stack record
(`saveStackMetadata`) and the media records (`saveMediaMetadata`), with
their outcomes in that order. -/
def runPuts (env : WriteEnv) (store : Store) (b : RequestBody) :
    Store × List PutOutcome :=
  let sr := conditionalPut store.stackTable b.stackId
    ⟨b.caption, b.stackId, b.location, b.uploadTimestamp⟩ env.stackFault
  let mr := saveMediaAll env b.stackId store.mediaTable 0 b.media
  (⟨sr.1, mr.1⟩, sr.2 :: mr.2)

/-- Outcome of `JSON.parse` plus the Joi write schema
(lambda/media/write/schemas.ts); the schema's verdict is carried by the
event since no claim depends on its internals. -/
inductive ParsedWrite
  | invalidJson
  | schemaReject (message : String)
  | valid (b : RequestBody)
deriving DecidableEq

/-- The API Gateway event for the write handler. -/
structure WriteEvent where
  body : Option ParsedWrite
deriving DecidableEq

/-- A write response (`createResponse`); the body is always a single
`{message}` object. -/
structure WriteResponse where
  statusCode : Nat
  message : String
deriving DecidableEq

/-- `createResponse` of the write handler. -/
def createResponse (statusCode : Nat) (message : String) : WriteResponse :=
  ⟨statusCode, message⟩

/-- The write handler (lambda/media/write/index.ts, `handler`): parse and
validate, issue all conditional puts, join; `Promise.all` resolves (200)
iff no put rethrew, i.e. iff every outcome was inserted or alreadyExists.
Returns the final store alongside the response. -/
def handler (env : WriteEnv) (store : Store) (event : WriteEvent) :
    WriteResponse × Store :=
  match event.body with
  | none => (createResponse 400 "Request body is missing.", store)
  | some ParsedWrite.invalidJson => (createResponse 400 "Invalid JSON format.", store)
  | some (ParsedWrite.schemaReject m) =>
    (createResponse 400 ("Invalid request: " ++ m), store)
  | some (ParsedWrite.valid b) =>
    let r := runPuts env store b
    if r.2.all (fun o => o != PutOutcome.failed)
    then (createResponse 200 "Media metadata saved successfully!", r.1)
    else (createResponse 500 "Failed to save metadata.", r.1)

end MediaWrite

/-! ## The signed-URL handler, lambda/media/generate-signed-urls/index.ts -/

namespace GenerateSignedUrls

/-- interface FileMetadata. -/
structure FileMetadata where
  fileName : String
  contentType : String
  userId : String
deriving DecidableEq

/-- The pieces of `new Date()` that `createKey` reads: `getFullYear()` and
`getMonth()` (month index 0-11). -/
structure JsDate where
  fullYear : Nat
  monthIndex : Nat
deriving DecidableEq

/-- `String.prototype.padStart(len, c)`. -/
def padStart (len : Nat) (c : Char) (s : String) : String :=
  if len ≤ s.length then s else String.mk (List.replicate (len - s.length) c) ++ s

/-- `createKey(userId, fileName, contentType)`: the freshly drawn uuid is
passed explicitly (`uuidv4()` is the external generator); `contentType`
is accepted and unused exactly as in the source. -/
def createKey (now : JsDate) (uuid : String) (userId fileName contentType : String) : String :=
  "user/" ++ userId ++ "/" ++ toString now.fullYear ++ "/" ++
    padStart 2 '0' (toString (now.monthIndex + 1)) ++ "/" ++ uuid ++ "_" ++ fileName

/-- Oracles for the external collaborators: the S3 presigner
(`getSignedUrl`, which may reject) and the uuid generator (`uuidv4`,
indexed by call number). -/
structure SignedEnv where
  sign : String → String → Except String String
  uuidGen : Nat → String

/-- `getSignedUrlPromiseAndKey`: compute the key, request the signed URL,
pair them. -/
def getSignedUrlPromiseAndKey (env : SignedEnv) (now : JsDate) (tokenIndex : Nat)
    (fm : FileMetadata) : Except String (String × String) :=
  let key := createKey now (env.uuidGen tokenIndex) fm.userId fm.fileName fm.contentType
  match env.sign key fm.contentType with
  | Except.ok url => Except.ok (url, key)
  | Except.error e => Except.error e

/-- `filesMetadata.map(getSignedUrlPromiseAndKey)`: the synchronous part
(key creation, hence the uuid draws) runs in input order, numbering the
draws from `i`. -/
def signAllFrom (env : SignedEnv) (now : JsDate) :
    Nat → List FileMetadata → List (Except String (String × String))
  | _, [] => []
  | i, fm :: rest => getSignedUrlPromiseAndKey env now i fm :: signAllFrom env now (i + 1) rest

/-- The JSON body of a signed-URL response. -/
inductive SignedBodyJson
  | message (message : String)
  | data (signedUrlsAndKeys : List (String × String)) (cdnDomainUrl : String)
deriving DecidableEq

/-- An API Gateway response of the signed-URL handler. -/
structure SignedResponse where
  statusCode : Nat
  body : SignedBodyJson
deriving DecidableEq

/-- Outcome of `JSON.parse` plus the Joi schema
(lambda/media/generate-signed-urls/schemas.ts); the schema's verdict is
carried by the event since no claim depends on its internals. -/
inductive ParsedSigned
  | invalidJson
  | schemaReject (message : String)
  | valid (filesMetadata : List FileMetadata)
deriving DecidableEq

/-- The API Gateway event for the signed-URL handler. -/
structure SignedEvent where
  body : Option ParsedSigned
deriving DecidableEq

/-- The signed-URL handler (`handler`): validate, fan out one presign per
file, join positionally, return the pairs plus the CDN domain. -/
def handler (cdnDomainUrl : String) (env : SignedEnv) (now : JsDate) (sched : List Nat)
    (event : SignedEvent) : SignedResponse :=
  match event.body with
  | none => ⟨400, SignedBodyJson.message "Request body is missing."⟩
  | some ParsedSigned.invalidJson => ⟨400, SignedBodyJson.message "Invalid JSON format."⟩
  | some (ParsedSigned.schemaReject m) =>
    ⟨400, SignedBodyJson.message ("Invalid request: " ++ m)⟩
  | some (ParsedSigned.valid files) =>
    match JsAsync.promiseAllSched sched (signAllFrom env now 0 files) with
    | Except.error _ => ⟨500, SignedBodyJson.message "Internal server error."⟩
    | Except.ok rs => ⟨200, SignedBodyJson.data rs cdnDomainUrl⟩

/-- The response envelope every signed-URL invocation satisfies. -/
def goodSignedResponse (r : SignedResponse) : Prop :=
  (r.statusCode = 200 ∨ r.statusCode = 400 ∨ r.statusCode = 500) ∧
  (r.statusCode ≠ 200 → ∃ m, r.body = SignedBodyJson.message m)

end GenerateSignedUrls

/-! ## Startup configuration checks

Each handler module reads its configuration from `process.env` at module
load.  The read handler (index.ts lines 26-41) and the signed-URL handler
(index.ts lines 23-34) validate eagerly and throw before any request is
handled; the write handler module contains no validation statements at
all, so its check function is constantly ok. -/

namespace StartupConfig

/-- The environment variables the three modules read. -/
structure ProcessEnv where
  STACK_METADATA_TABLE : Option String
  STACK_METADATA_GSI : Option String
  MEDIA_METADATA_TABLE : Option String
  MEDIA_METADATA_GSI : Option String
  S3_BUCKET_NAME : Option String
  S3_URL_TTL : Option String
  CDN_DOMAIN_URL : Option String
deriving DecidableEq

/-- JS falsiness of `process.env.X`: undefined or the empty string. -/
def falsyStr : Option String → Bool
  | none => true
  | some s => s == ""

/-- `Number(process.env.S3_URL_TTL)`: undefined gives NaN (`none`), the
empty string gives 0, a numeric string its value, anything else NaN. -/
def jsNumber : Option String → Option Int
  | none => none
  | some str => if str = "" then some 0 else str.toInt?

/-- The module-load validation of the read handler (read/index.ts lines
26-41). -/
def readModuleCheck (env : ProcessEnv) : Except String Unit :=
  if falsyStr env.STACK_METADATA_TABLE then
    Except.error "STACK_METADATA_TABLE environment variable is missing."
  else if falsyStr env.STACK_METADATA_GSI then
    Except.error "STACK_METADATA_GSI environment variable is missing."
  else if falsyStr env.MEDIA_METADATA_TABLE then
    Except.error "MEDIA_METADATA_TABLE environment variable is missing."
  else if falsyStr env.MEDIA_METADATA_GSI then
    Except.error "MEDIA_METADATA_GSI environment variable is missing."
  else Except.ok ()

/-- The module-load validation of the write handler: write/index.ts reads
`STACK_METADATA_TABLE` and `MEDIA_METADATA_TABLE` (lines 12-16) but
contains no check on them, so module load never fails. -/
def writeModuleCheck (_env : ProcessEnv) : Except String Unit :=
  Except.ok ()

/-- The module-load validation of the signed-URL handler
(generate-signed-urls/index.ts lines 23-34). -/
def signedUrlsModuleCheck (env : ProcessEnv) : Except String Unit :=
  if falsyStr env.S3_BUCKET_NAME then
    Except.error "S3_BUCKET_NAME environment variable is missing."
  else
    match jsNumber env.S3_URL_TTL with
    | none => Except.error "S3_URL_TTL environment variable is not a valid number"
    | some _ =>
      if falsyStr env.CDN_DOMAIN_URL then
        Except.error "CDN_DOMAIN_URL environment variable is missing."
      else Except.ok ()

end StartupConfig

/-! ## Derived definitions used by the statements -/

namespace GenerateSignedUrls

/-- The values of the fulfilled presign fan-out, given a function `signF`
describing what the signer returns: for the file at input position `j`
(numbering from `i`), the `{uploadUrl, key}` pair with the key built from
the `(i + j)`-th uuid draw. -/
def signedPairsFrom (env : SignedEnv) (now : JsDate) (signF : String → String → String) :
    Nat → List FileMetadata → List (String × String)
  | _, [] => []
  | i, fm :: rest =>
    (signF (createKey now (env.uuidGen i) fm.userId fm.fileName fm.contentType) fm.contentType,
      createKey now (env.uuidGen i) fm.userId fm.fileName fm.contentType)
      :: signedPairsFrom env now signF (i + 1) rest

end GenerateSignedUrls

/-! ## Concrete fixtures for witnesses and counterexamples -/

/-- A well-formed stack item. -/
def stackOne : MediaRead.StackItem := ⟨some "stack1", [("caption", "c")]⟩

/-- Store oracle whose stack query returns zero stacks. -/
def envStacksEmpty : MediaRead.ReadEnv :=
  ⟨fun _ _ _ => Except.ok ⟨some []⟩, fun _ => Except.ok ⟨some []⟩⟩

/-- Store oracle with one stack and one media item per stack. -/
def envOneStack : MediaRead.ReadEnv :=
  ⟨fun _ _ _ => Except.ok ⟨some [stackOne]⟩,
   fun _ => Except.ok ⟨some [[("mediaId", "media1")]]⟩⟩

/-- Store oracle whose only stack lacks the stackId attribute. -/
def envNoStackId : MediaRead.ReadEnv :=
  ⟨fun _ _ _ => Except.ok ⟨some [⟨none, []⟩]⟩, fun _ => Except.ok ⟨some []⟩⟩

/-- Store oracle whose media query fulfills with the `Items` field absent. -/
def envItemsAbsent : MediaRead.ReadEnv :=
  ⟨fun _ _ _ => Except.ok ⟨some [stackOne]⟩, fun _ => Except.ok ⟨none⟩⟩

/-- Store oracle whose media query fulfills with an empty `Items` array. -/
def envItemsEmpty : MediaRead.ReadEnv :=
  ⟨fun _ _ _ => Except.ok ⟨some [stackOne]⟩, fun _ => Except.ok ⟨some []⟩⟩

/-- Read event `{stackLimit: 1, startTimestamp: 0, endTimestamp: 5}`. -/
def evRead125 : MediaRead.ReadEvent :=
  ⟨some (MediaRead.ReadParsed.parsed
    ⟨some (MediaRead.JVal.num 1), some (MediaRead.JVal.num 0), some (MediaRead.JVal.num 5)⟩)⟩

/-- Read event `{stackLimit: -5}`. -/
def evReadNeg5 : MediaRead.ReadEvent :=
  ⟨some (MediaRead.ReadParsed.parsed ⟨some (MediaRead.JVal.num (-5)), none, none⟩)⟩

/-- Read event `{stackLimit: 2, startTimestamp: 1000}` with no endTimestamp. -/
def evReadLateStart : MediaRead.ReadEvent :=
  ⟨some (MediaRead.ReadParsed.parsed
    ⟨some (MediaRead.JVal.num 2), some (MediaRead.JVal.num 1000), none⟩)⟩

/-- A media item for the write fixtures. -/
def mediaM1 : MediaWrite.Media := ⟨"m1", none, ⟨"https://t", "https://f"⟩, "image"⟩

/-- A second media item for the write fixtures. -/
def mediaM2 : MediaWrite.Media := ⟨"m2", some "alt", ⟨"https://t2", "https://f2"⟩, "image"⟩

/-- A validated write body with two media items. -/
def writeBody1 : MediaWrite.RequestBody := ⟨"s1", "cap", 5, none, [mediaM1, mediaM2]⟩

/-- Write store oracle with no injected faults. -/
def writeEnvNoFault : MediaWrite.WriteEnv := ⟨false, fun _ => false⟩

/-- Write store oracle where the put for mediaId "m2" fails. -/
def writeEnvM2Fault : MediaWrite.WriteEnv := ⟨false, fun id => id == "m2"⟩

/-- The empty store. -/
def storeEmpty : MediaWrite.Store := ⟨[], []⟩

/-- File metadata of the spec's key-shape example. -/
def fmTest : GenerateSignedUrls.FileMetadata := ⟨"testfile.jpg", "image/jpeg", "user123"⟩

/-- Signer and uuid oracles: the signer fulfills deterministically, the
generator draws "a" then "aa". -/
def signedEnvAB : GenerateSignedUrls.SignedEnv :=
  ⟨fun k _ => Except.ok ("signed:" ++ k), fun i => if i = 0 then "a" else "aa"⟩

/-- `new Date()` on 2023-01-15: year 2023, month index 0. -/
def jan2023 : GenerateSignedUrls.JsDate := ⟨2023, 0⟩

/-- process.env with every variable missing. -/
def envAllMissing : StartupConfig.ProcessEnv := ⟨none, none, none, none, none, none, none⟩

/-- process.env for the write handler with STACK_METADATA_TABLE missing
and everything else set. -/
def envWriteMissingTable : StartupConfig.ProcessEnv :=
  ⟨none, some "g", some "m", some "mg", some "b", some "60", some "cdn"⟩

/-! ## Helper lemmas -/

theorem JsAsync.promiseAllSched_of_allOk {α : Type} (sched : List Nat)
    (ps : List (Except String α)) (rs : List α) (h : JsAsync.allOk ps = some rs) :
    JsAsync.promiseAllSched sched ps = Except.ok rs := by
  unfold JsAsync.promiseAllSched
  rw [h]

theorem JsAsync.promiseAllSched_of_allOk_none {α : Type} (sched : List Nat)
    (ps : List (Except String α)) (h : JsAsync.allOk ps = none) :
    ∃ e, JsAsync.promiseAllSched sched ps = Except.error e := by
  unfold JsAsync.promiseAllSched
  rw [h]
  exact ⟨_, rfl⟩

theorem JsAsync.allOk_map_ok {α β : Type} (f : β → Except String α) (g : β → α) :
    ∀ l : List β, (∀ x ∈ l, f x = Except.ok (g x)) →
      JsAsync.allOk (l.map f) = some (l.map g)
  | [], _ => rfl
  | x :: xs, h => by
    have hx := h x (List.mem_cons_self x xs)
    have hxs := JsAsync.allOk_map_ok f g xs (fun y hy => h y (List.mem_cons_of_mem x hy))
    simp [JsAsync.allOk, hx, hxs]

theorem MediaRead.buildMediaPromises_of_good (env : MediaRead.ReadEnv) :
    ∀ sl : List MediaRead.StackItem,
      (∀ s ∈ sl, ∃ id, s.stackId = some id ∧ id ≠ "") →
      MediaRead.buildMediaPromises env sl =
        (sl.map MediaRead.sid,
          Except.ok (sl.map (fun s => env.mediaQ (MediaRead.sid s))))
  | [], _ => rfl
  | s :: rest, h => by
    obtain ⟨id, hid, hne⟩ := h s (List.mem_cons_self s rest)
    have ih := MediaRead.buildMediaPromises_of_good env rest
      (fun y hy => h y (List.mem_cons_of_mem s hy))
    simp [MediaRead.buildMediaPromises, hid, hne, ih, MediaRead.sid]

theorem MediaRead.buildMediaPromises_of_bad (env : MediaRead.ReadEnv) :
    ∀ sl : List MediaRead.StackItem,
      (∃ s ∈ sl, s.stackId = none) →
      ∃ e, (MediaRead.buildMediaPromises env sl).2 = Except.error e
  | [], h => by simp at h
  | s :: rest, h => by
    match hsid : s.stackId with
    | none =>
      exact ⟨"stackId field is missing from stack",
        by simp [MediaRead.buildMediaPromises, hsid]⟩
    | some id =>
      by_cases hid : id = ""
      · exact ⟨"stackId field is missing from stack",
          by simp [MediaRead.buildMediaPromises, hsid, hid]⟩
      · obtain ⟨t, ht, htn⟩ := h
        rcases List.mem_cons.mp ht with rfl | htm
        · rw [hsid] at htn
          cases htn
        · obtain ⟨e, he⟩ := MediaRead.buildMediaPromises_of_bad env rest ⟨t, htm, htn⟩
          exact ⟨e, by simp [MediaRead.buildMediaPromises, hsid, hid, he]⟩

theorem MediaRead.combine_map (h : MediaRead.StackItem → MediaRead.MediaQueryOut) :
    ∀ sl : List MediaRead.StackItem,
      MediaRead.combine sl (sl.map h) =
        Except.ok (sl.map (fun s => ⟨s, (h s).Items⟩))
  | [] => rfl
  | s :: rest => by simp [MediaRead.combine, MediaRead.combine_map h rest]

theorem MediaRead.handler_parse_ok (now : Int) (env : MediaRead.ReadEnv)
    (sched : List Nat) (ev : MediaRead.ReadEvent) (rb : MediaRead.RequestBody)
    (h : MediaRead.parseRequestBody now ev = Except.ok rb) :
    MediaRead.handler now env sched ev = MediaRead.afterParse env sched rb := by
  unfold MediaRead.handler
  rw [h]

theorem MediaRead.handler_parse_validationErr (now : Int) (env : MediaRead.ReadEnv)
    (sched : List Nat) (ev : MediaRead.ReadEvent) (m : String)
    (h : MediaRead.parseRequestBody now ev =
      Except.error (MediaRead.HandlerError.validationErr m)) :
    MediaRead.handler now env sched ev =
      (MediaRead.createErrorResponse 400 m, ⟨[], []⟩) := by
  unfold MediaRead.handler
  rw [h]

theorem MediaRead.afterParse_stackQ_ok (env : MediaRead.ReadEnv) (sched : List Nat)
    (rb : MediaRead.RequestBody) (out : MediaRead.StackQueryOut)
    (h : env.stackQ rb.stackLimit rb.startTimestamp rb.endTimestamp = Except.ok out) :
    MediaRead.afterParse env sched rb =
      (if (out.Items.getD []).isEmpty
       then (MediaRead.createErrorResponse 404 "No stacks found!",
         ⟨[(rb.stackLimit, rb.startTimestamp, rb.endTimestamp)], []⟩)
       else MediaRead.mediaFanout env sched
         (rb.stackLimit, rb.startTimestamp, rb.endTimestamp) (out.Items.getD [])) := by
  unfold MediaRead.afterParse
  rw [h]

theorem MediaRead.mediaFanout_ok (env : MediaRead.ReadEnv) (sched : List Nat)
    (q : Int × Int × Int) (sl : List MediaRead.StackItem)
    (hgood : ∀ s ∈ sl, ∃ id, s.stackId = some id ∧ id ≠ "")
    (hok : ∀ s ∈ sl, ∃ r, env.mediaQ (MediaRead.sid s) = Except.ok r) :
    MediaRead.mediaFanout env sched q sl =
      ({ statusCode := 200,
         body := MediaRead.ReadBodyJson.data
           (sl.map (fun s => ⟨s, (MediaRead.mqRes env s).Items⟩)) },
       ⟨[q], sl.map MediaRead.sid⟩) := by
  have hmq : ∀ s ∈ sl, env.mediaQ (MediaRead.sid s) =
      Except.ok (MediaRead.mqRes env s) := by
    intro s hs
    obtain ⟨r, hr⟩ := hok s hs
    simp [MediaRead.mqRes, hr]
  have hb := MediaRead.buildMediaPromises_of_good env sl hgood
  have ha := JsAsync.allOk_map_ok (fun s => env.mediaQ (MediaRead.sid s))
    (MediaRead.mqRes env) sl hmq
  have hp := JsAsync.promiseAllSched_of_allOk sched _ _ ha
  have hc := MediaRead.combine_map (MediaRead.mqRes env) sl
  simp [MediaRead.mediaFanout, hb, hp, hc]

theorem MediaRead.mediaFanout_sched_eq (env : MediaRead.ReadEnv)
    (s1 s2 : List Nat) (q : Int × Int × Int) (sl : List MediaRead.StackItem) :
    MediaRead.mediaFanout env s1 q sl = MediaRead.mediaFanout env s2 q sl := by
  unfold MediaRead.mediaFanout
  cases hb : MediaRead.buildMediaPromises env sl with
  | mk issued built =>
    cases built with
    | error e => rfl
    | ok ps =>
      cases ha : JsAsync.allOk ps with
      | some rs =>
        have h1 := JsAsync.promiseAllSched_of_allOk s1 ps rs ha
        have h2 := JsAsync.promiseAllSched_of_allOk s2 ps rs ha
        simp only [h1, h2]
      | none =>
        obtain ⟨e1, he1⟩ := JsAsync.promiseAllSched_of_allOk_none s1 ps ha
        obtain ⟨e2, he2⟩ := JsAsync.promiseAllSched_of_allOk_none s2 ps ha
        simp only [he1, he2]

theorem MediaRead.afterParse_sched_eq (env : MediaRead.ReadEnv)
    (s1 s2 : List Nat) (rb : MediaRead.RequestBody) :
    MediaRead.afterParse env s1 rb = MediaRead.afterParse env s2 rb := by
  unfold MediaRead.afterParse
  cases env.stackQ rb.stackLimit rb.startTimestamp rb.endTimestamp with
  | error e => rfl
  | ok out =>
    by_cases h : (out.Items.getD []).isEmpty
    · simp [h]
    · simp [h, MediaRead.mediaFanout_sched_eq env s1 s2]

theorem MediaRead.handler_sched_eq (now : Int) (env : MediaRead.ReadEnv)
    (s1 s2 : List Nat) (ev : MediaRead.ReadEvent) :
    MediaRead.handler now env s1 ev = MediaRead.handler now env s2 ev := by
  unfold MediaRead.handler
  cases MediaRead.parseRequestBody now ev with
  | error e => cases e <;> rfl
  | ok rb => exact MediaRead.afterParse_sched_eq env s1 s2 rb

theorem MediaWrite.tableGet_append {α : Type} (tbl l : List (String × α)) (k : String)
    (v : α) (h : MediaWrite.tableGet tbl k = some v) :
    MediaWrite.tableGet (tbl ++ l) k = some v := by
  induction tbl with
  | nil => simp [MediaWrite.tableGet] at h
  | cons e rest ih =>
    unfold MediaWrite.tableGet at h ⊢
    cases hb : (e.1 == k) with
    | true => simpa [List.find?_cons, hb] using h
    | false =>
      have h2 : Option.map (fun e => e.2) (List.find? (fun e => e.1 == k) rest) = some v := by
        simpa [List.find?_cons, hb] using h
      have h3 := ih h2
      simpa [MediaWrite.tableGet, List.find?_cons, hb] using h3

theorem MediaWrite.tableGet_eq_none_of_not_has {α : Type} (tbl : List (String × α))
    (k : String) (h : MediaWrite.tableHas tbl k = false) :
    MediaWrite.tableGet tbl k = none := by
  unfold MediaWrite.tableHas at h
  unfold MediaWrite.tableGet
  rw [List.find?_eq_none.mpr]
  · rfl
  · intro e he hek
    have : tbl.any (fun e => e.1 == k) = true := List.any_eq_true.mpr ⟨e, he, hek⟩
    rw [this] at h
    cases h

theorem MediaWrite.tableGet_insert_self {α : Type} (tbl : List (String × α))
    (k : String) (v : α) (h : MediaWrite.tableHas tbl k = false) :
    MediaWrite.tableGet (tbl ++ [(k, v)]) k = some v := by
  induction tbl with
  | nil => simp [MediaWrite.tableGet, List.find?_cons]
  | cons e rest ih =>
    unfold MediaWrite.tableHas at h
    rw [List.any_cons] at h
    have hb : (e.1 == k) = false := by
      cases hx : (e.1 == k) with
      | true => rw [hx] at h; simp at h
      | false => rfl
    have hrest : rest.any (fun e => e.1 == k) = false := by
      rw [hb] at h
      simpa using h
    have h3 := ih hrest
    simpa [MediaWrite.tableGet, List.find?_cons, hb] using h3

theorem MediaWrite.conditionalPut_failed_iff {α : Type} (tbl : List (String × α))
    (k : String) (v : α) (fault : Bool) :
    (MediaWrite.conditionalPut tbl k v fault).2 = MediaWrite.PutOutcome.failed ↔
      fault = true := by
  unfold MediaWrite.conditionalPut
  cases fault with
  | true => simp
  | false =>
    cases h : MediaWrite.tableHas tbl k with
    | true => simp [h]
    | false => simp [h]

theorem MediaWrite.conditionalPut_preserves {α : Type} (tbl : List (String × α))
    (k2 : String) (v2 : α) (fault : Bool) (k : String) (v : α)
    (h : MediaWrite.tableGet tbl k = some v) :
    MediaWrite.tableGet (MediaWrite.conditionalPut tbl k2 v2 fault).1 k = some v := by
  unfold MediaWrite.conditionalPut
  cases fault with
  | true => simpa using h
  | false =>
    cases hh : MediaWrite.tableHas tbl k2 with
    | true => simpa [hh] using h
    | false =>
      simp only [hh, Bool.false_eq_true, if_false, if_true]
      exact MediaWrite.tableGet_append tbl [(k2, v2)] k v h

theorem MediaWrite.saveMediaAll_all_eq (env : MediaWrite.WriteEnv) (sid : String) :
    ∀ (ms : List MediaWrite.Media) (tbl : List (String × MediaWrite.MediaRecord)) (i : Nat),
      ((MediaWrite.saveMediaAll env sid tbl i ms).2.all
          (fun o => o != MediaWrite.PutOutcome.failed))
        = ms.all (fun m => !env.mediaFault m.mediaId)
  | [], tbl, i => by simp [MediaWrite.saveMediaAll]
  | m :: rest, tbl, i => by
    simp only [MediaWrite.saveMediaAll, List.all_cons]
    rw [MediaWrite.saveMediaAll_all_eq env sid rest _ (i + 1)]
    congr 1
    cases hf : env.mediaFault m.mediaId with
    | true => simp [MediaWrite.conditionalPut, hf]
    | false =>
      cases hh : MediaWrite.tableHas tbl m.mediaId with
      | true => simp [MediaWrite.conditionalPut, hf, hh]
      | false => simp [MediaWrite.conditionalPut, hf, hh]

theorem MediaWrite.saveMediaAll_preserves (env : MediaWrite.WriteEnv) (sid : String) :
    ∀ (ms : List MediaWrite.Media) (tbl : List (String × MediaWrite.MediaRecord)) (i : Nat)
      (k : String) (v : MediaWrite.MediaRecord),
      MediaWrite.tableGet tbl k = some v →
      MediaWrite.tableGet (MediaWrite.saveMediaAll env sid tbl i ms).1 k = some v
  | [], tbl, i, k, v, h => by simpa [MediaWrite.saveMediaAll] using h
  | m :: rest, tbl, i, k, v, h => by
    have h1 := MediaWrite.conditionalPut_preserves tbl m.mediaId
      ⟨m.mediaId, sid, m.alternativeText, m.imageSrc, i, m.mediaType⟩
      (env.mediaFault m.mediaId) k v h
    have h2 := MediaWrite.saveMediaAll_preserves env sid rest _ (i + 1) k v h1
    simpa [MediaWrite.saveMediaAll] using h2

theorem GenerateSignedUrls.allOk_signAllFrom (env : GenerateSignedUrls.SignedEnv)
    (now : GenerateSignedUrls.JsDate) (signF : String → String → String)
    (hs : ∀ k ct, env.sign k ct = Except.ok (signF k ct)) :
    ∀ (files : List GenerateSignedUrls.FileMetadata) (i : Nat),
      JsAsync.allOk (GenerateSignedUrls.signAllFrom env now i files) =
        some (GenerateSignedUrls.signedPairsFrom env now signF i files)
  | [], _ => rfl
  | fm :: rest, i => by
    have ih := GenerateSignedUrls.allOk_signAllFrom env now signF hs rest (i + 1)
    simp [GenerateSignedUrls.signAllFrom, GenerateSignedUrls.getSignedUrlPromiseAndKey,
      GenerateSignedUrls.signedPairsFrom, hs, JsAsync.allOk, ih]

theorem GenerateSignedUrls.signedPairsFrom_length (env : GenerateSignedUrls.SignedEnv)
    (now : GenerateSignedUrls.JsDate) (signF : String → String → String) :
    ∀ (files : List GenerateSignedUrls.FileMetadata) (i : Nat),
      (GenerateSignedUrls.signedPairsFrom env now signF i files).length = files.length
  | [], _ => rfl
  | fm :: rest, i => by
    simp [GenerateSignedUrls.signedPairsFrom,
      GenerateSignedUrls.signedPairsFrom_length env now signF rest (i + 1)]

theorem GenerateSignedUrls.signedPairsFrom_get? (env : GenerateSignedUrls.SignedEnv)
    (now : GenerateSignedUrls.JsDate) (signF : String → String → String) :
    ∀ (files : List GenerateSignedUrls.FileMetadata) (i j : Nat),
      (GenerateSignedUrls.signedPairsFrom env now signF i files).get? j =
        (files.get? j).map (fun fm =>
          (signF (GenerateSignedUrls.createKey now (env.uuidGen (i + j))
              fm.userId fm.fileName fm.contentType) fm.contentType,
           GenerateSignedUrls.createKey now (env.uuidGen (i + j))
              fm.userId fm.fileName fm.contentType))
  | [], i, j => by simp [GenerateSignedUrls.signedPairsFrom]
  | fm :: rest, i, 0 => by simp [GenerateSignedUrls.signedPairsFrom]
  | fm :: rest, i, j + 1 => by
    have ih := GenerateSignedUrls.signedPairsFrom_get? env now signF rest (i + 1) j
    have harith : i + 1 + j = i + (j + 1) := by omega
    simp only [GenerateSignedUrls.signedPairsFrom, List.get?_cons_succ, ih, harith]

theorem string_data_inj {a b : String} (h : a.data = b.data) : a = b := by
  cases a
  cases b
  simp_all

theorem string_data_append (a b : String) : (a ++ b).data = a.data ++ b.data := by
  cases a
  cases b
  rfl

theorem GenerateSignedUrls.createKey_uuid_inj (now : GenerateSignedUrls.JsDate)
    (userId fileName contentType u1 u2 : String)
    (h : GenerateSignedUrls.createKey now u1 userId fileName contentType =
         GenerateSignedUrls.createKey now u2 userId fileName contentType) : u1 = u2 := by
  unfold GenerateSignedUrls.createKey at h
  have hd := congrArg String.data h
  simp only [string_data_append, List.append_assoc] at hd
  have h1 := List.append_cancel_left hd
  have h2 := List.append_cancel_left h1
  have h3 := List.append_cancel_left h2
  have h4 := List.append_cancel_left h3
  have h5 := List.append_cancel_left h4
  have h6 := List.append_cancel_left h5
  have h7 := List.append_cancel_left h6
  rw [← List.append_assoc, ← List.append_assoc] at h7
  have h8 := List.append_cancel_right h7
  have h9 := List.append_cancel_right h8
  exact string_data_inj h9

theorem MediaRead.goodReadResponse_mediaFanout (env : MediaRead.ReadEnv)
    (sched : List Nat) (q : Int × Int × Int) (sl : List MediaRead.StackItem) :
    MediaRead.goodReadResponse (MediaRead.mediaFanout env sched q sl).1 := by
  unfold MediaRead.mediaFanout
  split <;> (try split) <;> (try split) <;>
    simp [MediaRead.goodReadResponse, MediaRead.createErrorResponse]

theorem MediaRead.goodReadResponse_afterParse (env : MediaRead.ReadEnv)
    (sched : List Nat) (rb : MediaRead.RequestBody) :
    MediaRead.goodReadResponse (MediaRead.afterParse env sched rb).1 := by
  unfold MediaRead.afterParse
  split
  · simp [MediaRead.goodReadResponse, MediaRead.createErrorResponse]
  · split
    · simp [MediaRead.goodReadResponse, MediaRead.createErrorResponse]
    · exact MediaRead.goodReadResponse_mediaFanout env sched _ _

theorem MediaRead.goodReadResponse_handler (now : Int) (env : MediaRead.ReadEnv)
    (sched : List Nat) (ev : MediaRead.ReadEvent) :
    MediaRead.goodReadResponse (MediaRead.handler now env sched ev).1 := by
  unfold MediaRead.handler
  split
  · simp [MediaRead.goodReadResponse, MediaRead.createErrorResponse]
  · simp [MediaRead.goodReadResponse, MediaRead.createErrorResponse]
  · exact MediaRead.goodReadResponse_afterParse env sched _

theorem MediaWrite.handler_statusCodes (env : MediaWrite.WriteEnv)
    (store : MediaWrite.Store) (ev : MediaWrite.WriteEvent) :
    (MediaWrite.handler env store ev).1.statusCode = 200 ∨
    (MediaWrite.handler env store ev).1.statusCode = 400 ∨
    (MediaWrite.handler env store ev).1.statusCode = 500 := by
  unfold MediaWrite.handler
  split
  · simp [MediaWrite.createResponse]
  · simp [MediaWrite.createResponse]
  · simp [MediaWrite.createResponse]
  · rename_i x b heq
    by_cases hc : ((MediaWrite.runPuts env store b).2.all
        (fun o => o != MediaWrite.PutOutcome.failed)) = true
    · simp [hc, MediaWrite.createResponse]
    · simp [hc, MediaWrite.createResponse]

theorem GenerateSignedUrls.goodSignedResponse_handler (cdn : String)
    (env : GenerateSignedUrls.SignedEnv) (now : GenerateSignedUrls.JsDate)
    (sched : List Nat) (ev : GenerateSignedUrls.SignedEvent) :
    GenerateSignedUrls.goodSignedResponse
      (GenerateSignedUrls.handler cdn env now sched ev) := by
  unfold GenerateSignedUrls.handler
  split <;> (try split) <;> simp [GenerateSignedUrls.goodSignedResponse]

theorem MediaRead.mediaFanout_build_err (env : MediaRead.ReadEnv) (sched : List Nat)
    (q : Int × Int × Int) (sl : List MediaRead.StackItem) (e : String)
    (he : (MediaRead.buildMediaPromises env sl).2 = Except.error e) :
    (MediaRead.mediaFanout env sched q sl).1 =
      MediaRead.createErrorResponse 500 "Internal server error." := by
  unfold MediaRead.mediaFanout
  cases hb : MediaRead.buildMediaPromises env sl with
  | mk issued built =>
    rw [hb] at he
    cases built with
    | error e2 => rfl
    | ok ps => simp at he

theorem MediaRead.mediaFanout_stackQueries (env : MediaRead.ReadEnv) (sched : List Nat)
    (q : Int × Int × Int) (sl : List MediaRead.StackItem) :
    (MediaRead.mediaFanout env sched q sl).2.stackQueries = [q] := by
  unfold MediaRead.mediaFanout
  split <;> (try split) <;> (try split) <;> rfl

theorem MediaRead.afterParse_stackQueries (env : MediaRead.ReadEnv) (sched : List Nat)
    (rb : MediaRead.RequestBody) :
    (MediaRead.afterParse env sched rb).2.stackQueries =
      [(rb.stackLimit, rb.startTimestamp, rb.endTimestamp)] := by
  unfold MediaRead.afterParse
  split
  · rfl
  · split
    · rfl
    · exact MediaRead.mediaFanout_stackQueries env sched _ _

theorem MediaWrite.tableHas_eq_false_of_get_none {α : Type} (tbl : List (String × α))
    (k : String) (h : MediaWrite.tableGet tbl k = none) :
    MediaWrite.tableHas tbl k = false := by
  cases hh : MediaWrite.tableHas tbl k with
  | false => rfl
  | true =>
    obtain ⟨e, he, hek⟩ := List.any_eq_true.mp hh
    have hf : tbl.find? (fun e => e.1 == k) = none := by
      unfold MediaWrite.tableGet at h
      cases hfind : tbl.find? (fun e => e.1 == k) with
      | none => rfl
      | some x => rw [hfind] at h; cases h
    rw [List.find?_eq_none] at hf
    exact absurd hek (hf e he)

/-! ## Claim theorems -/

/-- Claim C3: for every validated read request whose stack query returns
zero stacks, the handler returns status 404 with message "No stacks
found!" — a not-found condition distinct from the 500 server-error
response — and issues no media lookups. -/
theorem c3_empty_result_404 (now : Int) (env : MediaRead.ReadEnv) (sched : List Nat)
    (ev : MediaRead.ReadEvent) (rb : MediaRead.RequestBody) (out : MediaRead.StackQueryOut)
    (hp : MediaRead.parseRequestBody now ev = Except.ok rb)
    (hq : env.stackQ rb.stackLimit rb.startTimestamp rb.endTimestamp = Except.ok out)
    (hz : out.Items.getD [] = []) :
    (MediaRead.handler now env sched ev).1 =
      { statusCode := 404, body := MediaRead.ReadBodyJson.message "No stacks found!" } ∧
    (MediaRead.handler now env sched ev).1.statusCode ≠ 500 ∧
    (MediaRead.handler now env sched ev).2.mediaQueries = [] := by
  have h1 := MediaRead.handler_parse_ok now env sched ev rb hp
  have h2 := MediaRead.afterParse_stackQ_ok env sched rb out hq
  rw [h1, h2, hz]
  simp [MediaRead.createErrorResponse]

/-- Witness for C3: a concrete request against a store with zero stacks. -/
theorem c3_empty_result_404_witness :
    (MediaRead.handler 0 envStacksEmpty [] evRead125).1 =
      { statusCode := 404, body := MediaRead.ReadBodyJson.message "No stacks found!" } ∧
    (MediaRead.handler 0 envStacksEmpty [] evRead125).1.statusCode ≠ 500 ∧
    (MediaRead.handler 0 envStacksEmpty [] evRead125).2.mediaQueries = [] :=
  c3_empty_result_404 0 envStacksEmpty [] evRead125 ⟨1, 0, 5⟩ ⟨some []⟩ rfl rfl rfl

/-- Claim C4: if the stack query succeeds but at least one returned stack
entry lacks the stackId field, the whole request fails with the generic
500 "Internal server error." response — no partial result is returned. -/
theorem c4_missing_stackid_fails_request (now : Int) (env : MediaRead.ReadEnv)
    (sched : List Nat) (ev : MediaRead.ReadEvent) (rb : MediaRead.RequestBody)
    (out : MediaRead.StackQueryOut) (sl : List MediaRead.StackItem)
    (hp : MediaRead.parseRequestBody now ev = Except.ok rb)
    (hq : env.stackQ rb.stackLimit rb.startTimestamp rb.endTimestamp = Except.ok out)
    (hi : out.Items = some sl)
    (hbad : ∃ s ∈ sl, s.stackId = none) :
    (MediaRead.handler now env sched ev).1 =
      { statusCode := 500, body := MediaRead.ReadBodyJson.message "Internal server error." } := by
  have h1 := MediaRead.handler_parse_ok now env sched ev rb hp
  have h2 := MediaRead.afterParse_stackQ_ok env sched rb out hq
  obtain ⟨e, he⟩ := MediaRead.buildMediaPromises_of_bad env sl hbad
  have hne : sl ≠ [] := by
    rintro rfl
    simp at hbad
  have hie : sl.isEmpty = false := by
    cases sl with
    | nil => exact absurd rfl hne
    | cons a l => rfl
  have h3 := MediaRead.mediaFanout_build_err env sched
    (rb.stackLimit, rb.startTimestamp, rb.endTimestamp) sl e he
  rw [h1, h2, hi]
  simp only [Option.getD_some, hie, Bool.false_eq_true, if_false]
  exact h3

/-- Witness for C4: one stack without stackId fails the whole request. -/
theorem c4_missing_stackid_fails_request_witness :
    (MediaRead.handler 0 envNoStackId [] evRead125).1 =
      { statusCode := 500, body := MediaRead.ReadBodyJson.message "Internal server error." } :=
  c4_missing_stackid_fails_request 0 envNoStackId [] evRead125 ⟨1, 0, 5⟩
    ⟨some [⟨none, []⟩]⟩ [⟨none, []⟩] rfl rfl rfl ⟨⟨none, []⟩, by simp, rfl⟩

/-- Claim C1: for every read request whose stack query returns a non-empty
list of stacks (each carrying a usable stackId, with all media lookups
fulfilling), the success response's stackAndMediaData array has exactly
one {stack, media} pair per returned stack, in the stack query's order,
the media result of pair i being the result of querying the Media index
with stack i's stackId; the merge is positional, and the whole response
is independent of the completion order of the media fan-out. -/
theorem c1_read_positional_merge (now : Int) (env : MediaRead.ReadEnv) (sched : List Nat)
    (ev : MediaRead.ReadEvent) (rb : MediaRead.RequestBody) (out : MediaRead.StackQueryOut)
    (sl : List MediaRead.StackItem)
    (hp : MediaRead.parseRequestBody now ev = Except.ok rb)
    (hq : env.stackQ rb.stackLimit rb.startTimestamp rb.endTimestamp = Except.ok out)
    (hi : out.Items = some sl) (hne : sl ≠ [])
    (hgood : ∀ s ∈ sl, ∃ id, s.stackId = some id ∧ id ≠ "")
    (hok : ∀ s ∈ sl, ∃ r, env.mediaQ (MediaRead.sid s) = Except.ok r) :
    (∃ pairs, (MediaRead.handler now env sched ev).1 =
        { statusCode := 200, body := MediaRead.ReadBodyJson.data pairs } ∧
      pairs.length = sl.length ∧
      ∀ i : Nat, i < sl.length →
        ∃ s id r, sl.get? i = some s ∧ s.stackId = some id ∧
          env.mediaQ id = Except.ok r ∧
          pairs.get? i = some ⟨s, r.Items⟩) ∧
    ∀ sched2, MediaRead.handler now env sched ev = MediaRead.handler now env sched2 ev := by
  constructor
  · have h1 := MediaRead.handler_parse_ok now env sched ev rb hp
    have h2 := MediaRead.afterParse_stackQ_ok env sched rb out hq
    have hie : sl.isEmpty = false := by
      cases sl with
      | nil => exact absurd rfl hne
      | cons a l => rfl
    have h3 := MediaRead.mediaFanout_ok env sched
      (rb.stackLimit, rb.startTimestamp, rb.endTimestamp) sl hgood hok
    refine ⟨sl.map (fun s => ⟨s, (MediaRead.mqRes env s).Items⟩), ?_, ?_, ?_⟩
    · rw [h1, h2, hi]
      simp only [Option.getD_some, hie, Bool.false_eq_true, if_false]
      rw [h3]
    · simp
    · intro i hilt
      obtain ⟨s, hgs⟩ : ∃ s, sl.get? i = some s := by
        rw [List.get?_eq_get hilt]
        exact ⟨_, rfl⟩
      have hmem : s ∈ sl := List.get?_mem hgs
      obtain ⟨id, hid, hidne⟩ := hgood s hmem
      obtain ⟨r, hr⟩ := hok s hmem
      have hsid : MediaRead.sid s = id := by
        unfold MediaRead.sid
        rw [hid]
        rfl
      refine ⟨s, id, r, hgs, hid, ?_, ?_⟩
      · rw [← hsid]
        exact hr
      · rw [List.get?_map, hgs]
        have hmq : MediaRead.mqRes env s = r := by
          rw [hsid] at hr
          unfold MediaRead.mqRes
          rw [hsid, hr]
        simp [hmq]
  · intro sched2
    exact MediaRead.handler_sched_eq now env sched sched2 ev

/-- Witness for C1: one stack, one media lookup, concrete store. -/
theorem c1_read_positional_merge_witness :
    ∃ pairs, (MediaRead.handler 0 envOneStack [] evRead125).1 =
        { statusCode := 200, body := MediaRead.ReadBodyJson.data pairs } ∧
      pairs.length = 1 := by
  obtain ⟨⟨pairs, hresp, hlen, _⟩, _⟩ :=
    c1_read_positional_merge 0 envOneStack [] evRead125 ⟨1, 0, 5⟩ ⟨some [stackOne]⟩
      [stackOne] rfl rfl rfl (by simp)
      (by
        intro s hs
        rw [List.mem_singleton.mp hs]
        exact ⟨"stack1", rfl, by decide⟩)
      (by
        intro s hs
        exact ⟨⟨some [[("mediaId", "media1")]]⟩, rfl⟩)
  exact ⟨pairs, hresp, by simpa using hlen⟩

/-- Counterexample to claim C6 as stated: when the store fulfills a media
lookup with the Items field absent (which the client's types allow), the
handler copies that absence verbatim — the pair's media field is absent
(undefined, dropped by JSON.stringify), not the empty array the claim
requires.  Unlike the stack query result, the media result is not
defaulted with `|| []`. -/
theorem c6_counterexample :
    (MediaRead.handler 0 envItemsAbsent [] evRead125).1 =
      { statusCode := 200,
        body := MediaRead.ReadBodyJson.data [⟨stackOne, none⟩] } ∧
    (MediaRead.handler 0 envItemsAbsent [] evRead125).1.body ≠
      MediaRead.ReadBodyJson.data [⟨stackOne, some []⟩] := by
  constructor
  · rfl
  · decide

/-- Claim C6 amended: in every successful read response, each pair's media
field is exactly the Items field of that stack's media query response —
the empty array when the store returns an empty Items array, but absent
when the store response omits Items (no defaulting to the empty array is
applied). -/
theorem c6_media_is_items_verbatim (now : Int) (env : MediaRead.ReadEnv) (sched : List Nat)
    (ev : MediaRead.ReadEvent) (rb : MediaRead.RequestBody) (out : MediaRead.StackQueryOut)
    (sl : List MediaRead.StackItem)
    (hp : MediaRead.parseRequestBody now ev = Except.ok rb)
    (hq : env.stackQ rb.stackLimit rb.startTimestamp rb.endTimestamp = Except.ok out)
    (hi : out.Items = some sl) (hne : sl ≠ [])
    (hgood : ∀ s ∈ sl, ∃ id, s.stackId = some id ∧ id ≠ "")
    (hok : ∀ s ∈ sl, ∃ r, env.mediaQ (MediaRead.sid s) = Except.ok r) :
    ∃ pairs, (MediaRead.handler now env sched ev).1 =
        { statusCode := 200, body := MediaRead.ReadBodyJson.data pairs } ∧
      ∀ i : Nat, ∀ s, sl.get? i = some s →
        ∀ r, env.mediaQ (MediaRead.sid s) = Except.ok r →
          pairs.get? i = some ⟨s, r.Items⟩ := by
  have h1 := MediaRead.handler_parse_ok now env sched ev rb hp
  have h2 := MediaRead.afterParse_stackQ_ok env sched rb out hq
  have hie : sl.isEmpty = false := by
    cases sl with
    | nil => exact absurd rfl hne
    | cons a l => rfl
  have h3 := MediaRead.mediaFanout_ok env sched
    (rb.stackLimit, rb.startTimestamp, rb.endTimestamp) sl hgood hok
  refine ⟨sl.map (fun s => ⟨s, (MediaRead.mqRes env s).Items⟩), ?_, ?_⟩
  · rw [h1, h2, hi]
    simp only [Option.getD_some, hie, Bool.false_eq_true, if_false]
    rw [h3]
  · intro i s hgs r hr
    rw [List.get?_map, hgs]
    have hmq : MediaRead.mqRes env s = r := by
      unfold MediaRead.mqRes
      rw [hr]
    simp [hmq]

/-- Witness for the amended C6: an empty Items array comes back as an
empty media array. -/
theorem c6_media_is_items_verbatim_witness :
    ∃ pairs, (MediaRead.handler 0 envItemsEmpty [] evRead125).1 =
        { statusCode := 200, body := MediaRead.ReadBodyJson.data pairs } ∧
      pairs.get? 0 = some ⟨stackOne, some []⟩ := by
  obtain ⟨pairs, hresp, hidx⟩ :=
    c6_media_is_items_verbatim 0 envItemsEmpty [] evRead125 ⟨1, 0, 5⟩ ⟨some [stackOne]⟩
      [stackOne] rfl rfl rfl (by simp)
      (by
        intro s hs
        rw [List.mem_singleton.mp hs]
        exact ⟨"stack1", rfl, by decide⟩)
      (by
        intro s hs
        exact ⟨⟨some []⟩, rfl⟩)
  exact ⟨pairs, hresp, hidx 0 stackOne rfl ⟨some []⟩ rfl⟩

/-- Claim C7: the read-request validation enforces exactly the schema's
rules, reporting the first failing rule: stackLimit is required and must
be a number strictly greater than 0 (a stackLimit of -5 produces a 400
response containing "stackLimit must be greater than 0" and no store
call); startTimestamp is an optional number that must be non-negative
when supplied and defaults to 0; endTimestamp is an optional number that
must exceed startTimestamp when supplied and defaults to the current
time at validation. -/
theorem c7_read_schema_rules :
    (∀ (now : Int) (raw : MediaRead.RawReadBody) (l : Int),
       raw.stackLimit = some (MediaRead.JVal.num l) → l ≤ 0 →
       MediaRead.requestBodySchemaValidate now raw =
         Except.error "stackLimit must be greater than 0") ∧
    (∀ (now : Int) (raw : MediaRead.RawReadBody), raw.stackLimit = none →
       MediaRead.requestBodySchemaValidate now raw =
         Except.error "stackLimit is required") ∧
    (∀ (now : Int) (raw : MediaRead.RawReadBody),
       raw.stackLimit = some MediaRead.JVal.nonNum →
       MediaRead.requestBodySchemaValidate now raw =
         Except.error "stackLimit must be a string") ∧
    (∀ (now l s : Int) (e : Option MediaRead.JVal), 0 < l → s < 0 →
       MediaRead.requestBodySchemaValidate now
           ⟨some (MediaRead.JVal.num l), some (MediaRead.JVal.num s), e⟩ =
         Except.error "startTimestamp must be a non-negative number") ∧
    (∀ (now l en : Int), 0 < l → 0 < en →
       MediaRead.requestBodySchemaValidate now
           ⟨some (MediaRead.JVal.num l), none, some (MediaRead.JVal.num en)⟩ =
         Except.ok ⟨l, 0, en⟩) ∧
    (∀ (now l s : Int), 0 < l → 0 ≤ s →
       MediaRead.requestBodySchemaValidate now
           ⟨some (MediaRead.JVal.num l), some (MediaRead.JVal.num s), none⟩ =
         Except.ok ⟨l, s, now⟩) ∧
    (∀ (now l s en : Int), 0 < l → 0 ≤ s → en ≤ s →
       MediaRead.requestBodySchemaValidate now
           ⟨some (MediaRead.JVal.num l), some (MediaRead.JVal.num s),
             some (MediaRead.JVal.num en)⟩ =
         Except.error "endTimestamp must be greater than startTimestamp") ∧
    (∀ (now : Int) (env : MediaRead.ReadEnv) (sched : List Nat),
       MediaRead.handler now env sched evReadNeg5 =
         ({ statusCode := 400,
            body := MediaRead.ReadBodyJson.message
              "Invalid request: stackLimit must be greater than 0" }, ⟨[], []⟩)) := by
  refine ⟨?_, ?_, ?_, ?_, ?_, ?_, ?_, ?_⟩
  · intro now raw l hsl hle
    obtain ⟨a, b, c⟩ := raw
    cases hsl
    simp [MediaRead.requestBodySchemaValidate, hle]
  · intro now raw hsl
    obtain ⟨a, b, c⟩ := raw
    cases hsl
    simp [MediaRead.requestBodySchemaValidate]
  · intro now raw hsl
    obtain ⟨a, b, c⟩ := raw
    cases hsl
    simp [MediaRead.requestBodySchemaValidate]
  · intro now l s e hl hs
    have hnl : ¬ l ≤ 0 := by omega
    simp [MediaRead.requestBodySchemaValidate, hnl, hs]
  · intro now l en hl hen
    have hnl : ¬ l ≤ 0 := by omega
    have hne : ¬ en ≤ 0 := by omega
    simp [MediaRead.requestBodySchemaValidate, MediaRead.endCheck, hnl, hne]
  · intro now l s hl hs
    have hnl : ¬ l ≤ 0 := by omega
    have hns : ¬ s < 0 := by omega
    simp [MediaRead.requestBodySchemaValidate, MediaRead.endCheck, hnl, hns]
  · intro now l s en hl hs hen
    have hnl : ¬ l ≤ 0 := by omega
    have hns : ¬ s < 0 := by omega
    simp [MediaRead.requestBodySchemaValidate, MediaRead.endCheck, hnl, hns, hen]
  · intro now env sched
    exact MediaRead.handler_parse_validationErr now env sched evReadNeg5 _ rfl

/-- Witness for C7: the -5 example, concretely. -/
theorem c7_read_schema_rules_witness :
    MediaRead.requestBodySchemaValidate 0
        ⟨some (MediaRead.JVal.num (-5)), none, none⟩ =
      Except.error "stackLimit must be greater than 0" ∧
    MediaRead.handler 0 envStacksEmpty [] evReadNeg5 =
      ({ statusCode := 400,
         body := MediaRead.ReadBodyJson.message
           "Invalid request: stackLimit must be greater than 0" }, ⟨[], []⟩) :=
  ⟨c7_read_schema_rules.1 0 ⟨some (MediaRead.JVal.num (-5)), none, none⟩ (-5) rfl
      (by decide),
   c7_read_schema_rules.2.2.2.2.2.2.2 0 envStacksEmpty []⟩

/-- Counterexample to claim C10 as stated: at validation time 1000, the
request {stackLimit: 2, startTimestamp: 1000} — startTimestamp equal to
now and endTimestamp omitted — is NOT rejected with 400: Joi applies the
default (now) without running the greater-than-startTimestamp rule on
it, so validation succeeds with endTimestamp = 1000, the stack query is
issued, and the response here is 404. -/
theorem c10_counterexample :
    MediaRead.requestBodySchemaValidate 1000
        ⟨some (MediaRead.JVal.num 2), some (MediaRead.JVal.num 1000), none⟩ =
      Except.ok ⟨2, 1000, 1000⟩ ∧
    (MediaRead.handler 1000 envStacksEmpty [] evReadLateStart).1.statusCode = 404 ∧
    (MediaRead.handler 1000 envStacksEmpty [] evReadLateStart).1.statusCode ≠ 400 ∧
    (MediaRead.handler 1000 envStacksEmpty [] evReadLateStart).2.stackQueries =
      [(2, 1000, 1000)] :=
  ⟨rfl, rfl, by decide, rfl⟩

/-- Claim C10 amended: a read request supplying startTimestamp ≥ the
validation-time clock and omitting endTimestamp passes validation — the
defaulted endTimestamp (now) is never checked against the
strictly-greater-than-startTimestamp rule, because Joi does not validate
default values — and the request does reach the store, with endTimestamp
equal to now. -/
theorem c10_default_end_reaches_store (now l s : Int) (hl : 0 < l) (hs0 : 0 ≤ s)
    (hsnow : now ≤ s) :
    MediaRead.requestBodySchemaValidate now
        ⟨some (MediaRead.JVal.num l), some (MediaRead.JVal.num s), none⟩ =
      Except.ok ⟨l, s, now⟩ ∧
    ∀ (env : MediaRead.ReadEnv) (sched : List Nat),
      (MediaRead.handler now env sched
        ⟨some (MediaRead.ReadParsed.parsed
          ⟨some (MediaRead.JVal.num l), some (MediaRead.JVal.num s), none⟩)⟩).2.stackQueries
        = [(l, s, now)] := by
  have hnl : ¬ l ≤ 0 := by omega
  have hns : ¬ s < 0 := by omega
  have hv : MediaRead.requestBodySchemaValidate now
      ⟨some (MediaRead.JVal.num l), some (MediaRead.JVal.num s), none⟩ =
      Except.ok ⟨l, s, now⟩ := by
    simp [MediaRead.requestBodySchemaValidate, MediaRead.endCheck, hnl, hns]
  refine ⟨hv, ?_⟩
  intro env sched
  have hp : MediaRead.parseRequestBody now
      ⟨some (MediaRead.ReadParsed.parsed
        ⟨some (MediaRead.JVal.num l), some (MediaRead.JVal.num s), none⟩)⟩ =
      Except.ok ⟨l, s, now⟩ := by
    simp [MediaRead.parseRequestBody, hv]
  rw [MediaRead.handler_parse_ok now env sched _ _ hp]
  exact MediaRead.afterParse_stackQueries env sched ⟨l, s, now⟩

/-- Witness for the amended C10. -/
theorem c10_default_end_reaches_store_witness :
    MediaRead.requestBodySchemaValidate 1000
        ⟨some (MediaRead.JVal.num 2), some (MediaRead.JVal.num 1500), none⟩ =
      Except.ok ⟨2, 1500, 1000⟩ ∧
    (MediaRead.handler 1000 envStacksEmpty []
      ⟨some (MediaRead.ReadParsed.parsed
        ⟨some (MediaRead.JVal.num 2), some (MediaRead.JVal.num 1500), none⟩)⟩).2.stackQueries
      = [(2, 1500, 1000)] := by
  obtain ⟨h1, h2⟩ := c10_default_end_reaches_store 1000 2 1500 (by decide) (by decide)
    (by decide)
  exact ⟨h1, h2 envStacksEmpty []⟩

/-- Claim C2: for every validated write request the handler responds 200
"Media metadata saved successfully!" iff every conditional insert (the
stack record and one record per media item) ended inserted or
alreadyExists (the idempotent skip), while any other failure produces
500 "Failed to save metadata."; an alreadyExists outcome leaves the
previously stored item unchanged, and no compensation is performed — in
particular the stack insert persists even when a media insert failed. -/
theorem c2_write_idempotent_batch (env : MediaWrite.WriteEnv) (store : MediaWrite.Store)
    (b : MediaWrite.RequestBody) :
    ((MediaWrite.handler env store ⟨some (MediaWrite.ParsedWrite.valid b)⟩).1 =
        MediaWrite.createResponse 200 "Media metadata saved successfully!" ↔
      ∀ o ∈ (MediaWrite.runPuts env store b).2, o ≠ MediaWrite.PutOutcome.failed) ∧
    ((∃ o ∈ (MediaWrite.runPuts env store b).2, o = MediaWrite.PutOutcome.failed) →
      (MediaWrite.handler env store ⟨some (MediaWrite.ParsedWrite.valid b)⟩).1 =
        MediaWrite.createResponse 500 "Failed to save metadata.") ∧
    (∀ k v, MediaWrite.tableGet store.stackTable k = some v →
      MediaWrite.tableGet
        (MediaWrite.handler env store ⟨some (MediaWrite.ParsedWrite.valid b)⟩).2.stackTable
        k = some v) ∧
    (∀ k v, MediaWrite.tableGet store.mediaTable k = some v →
      MediaWrite.tableGet
        (MediaWrite.handler env store ⟨some (MediaWrite.ParsedWrite.valid b)⟩).2.mediaTable
        k = some v) ∧
    (env.stackFault = false → MediaWrite.tableGet store.stackTable b.stackId = none →
      MediaWrite.tableGet
        (MediaWrite.handler env store ⟨some (MediaWrite.ParsedWrite.valid b)⟩).2.stackTable
        b.stackId = some ⟨b.caption, b.stackId, b.location, b.uploadTimestamp⟩) := by
  have hall : ((MediaWrite.runPuts env store b).2.all
      (fun o => o != MediaWrite.PutOutcome.failed)) = true ↔
      ∀ o ∈ (MediaWrite.runPuts env store b).2, o ≠ MediaWrite.PutOutcome.failed := by
    rw [List.all_eq_true]
    constructor
    · intro h o ho
      simpa using h o ho
    · intro h o ho
      simpa using h o ho
  have hsnd : (MediaWrite.handler env store ⟨some (MediaWrite.ParsedWrite.valid b)⟩).2 =
      (MediaWrite.runPuts env store b).1 := by
    unfold MediaWrite.handler
    by_cases hc : ((MediaWrite.runPuts env store b).2.all
        (fun o => o != MediaWrite.PutOutcome.failed)) = true
    · simp [hc]
    · simp [hc]
  have hstk : (MediaWrite.runPuts env store b).1.stackTable =
      (MediaWrite.conditionalPut store.stackTable b.stackId
        ⟨b.caption, b.stackId, b.location, b.uploadTimestamp⟩ env.stackFault).1 := rfl
  have hmed : (MediaWrite.runPuts env store b).1.mediaTable =
      (MediaWrite.saveMediaAll env b.stackId store.mediaTable 0 b.media).1 := rfl
  refine ⟨?_, ?_, ?_, ?_, ?_⟩
  · by_cases hc : ((MediaWrite.runPuts env store b).2.all
        (fun o => o != MediaWrite.PutOutcome.failed)) = true
    · have hh : (MediaWrite.handler env store ⟨some (MediaWrite.ParsedWrite.valid b)⟩).1 =
          MediaWrite.createResponse 200 "Media metadata saved successfully!" := by
        unfold MediaWrite.handler
        simp [hc]
      rw [hh]
      simp only [true_iff]
      exact hall.mp hc
    · have hh : (MediaWrite.handler env store ⟨some (MediaWrite.ParsedWrite.valid b)⟩).1 =
          MediaWrite.createResponse 500 "Failed to save metadata." := by
        unfold MediaWrite.handler
        simp [hc]
      rw [hh]
      constructor
      · intro habs
        exact absurd (congrArg MediaWrite.WriteResponse.statusCode habs) (by decide)
      · intro hfor
        exact absurd (hall.mpr hfor) hc
  · intro hex
    have hc : ¬ ((MediaWrite.runPuts env store b).2.all
        (fun o => o != MediaWrite.PutOutcome.failed)) = true := by
      intro hc
      obtain ⟨o, ho, hof⟩ := hex
      exact absurd hof (hall.mp hc o ho)
    unfold MediaWrite.handler
    simp [hc]
  · intro k v h
    rw [hsnd, hstk]
    exact MediaWrite.conditionalPut_preserves store.stackTable b.stackId
      ⟨b.caption, b.stackId, b.location, b.uploadTimestamp⟩ env.stackFault k v h
  · intro k v h
    rw [hsnd, hmed]
    exact MediaWrite.saveMediaAll_preserves env b.stackId b.media store.mediaTable 0 k v h
  · intro hf hn
    have hhas := MediaWrite.tableHas_eq_false_of_get_none store.stackTable b.stackId hn
    rw [hsnd, hstk, hf]
    unfold MediaWrite.conditionalPut
    simp only [hhas, Bool.false_eq_true, if_false]
    exact MediaWrite.tableGet_insert_self store.stackTable b.stackId
      ⟨b.caption, b.stackId, b.location, b.uploadTimestamp⟩ hhas

/-- Witness for C2: with a fault injected on media item "m2", the handler
responds 500 and the already-inserted stack record persists (no
rollback). -/
theorem c2_write_idempotent_batch_witness :
    (MediaWrite.handler writeEnvM2Fault storeEmpty
        ⟨some (MediaWrite.ParsedWrite.valid writeBody1)⟩).1 =
      MediaWrite.createResponse 500 "Failed to save metadata." ∧
    MediaWrite.tableGet
      (MediaWrite.handler writeEnvM2Fault storeEmpty
        ⟨some (MediaWrite.ParsedWrite.valid writeBody1)⟩).2.stackTable "s1" =
      some ⟨"cap", "s1", none, 5⟩ := by
  have h := c2_write_idempotent_batch writeEnvM2Fault storeEmpty writeBody1
  refine ⟨h.2.1 ⟨MediaWrite.PutOutcome.failed, by decide, rfl⟩, h.2.2.2.2 rfl rfl⟩

/-- Claim C5 is contradicted by the code (and the write handler's own
test suite): the read and signed-URL modules do check every required
configuration value at load and fail before handling requests, but the
write module performs no startup check whatsoever — with
STACK_METADATA_TABLE missing it loads successfully, deferring the
failure to request time. -/
theorem c5_write_startup_check_missing :
    (∀ env : StartupConfig.ProcessEnv,
       StartupConfig.writeModuleCheck env = Except.ok ()) ∧
    StartupConfig.readModuleCheck envAllMissing =
      Except.error "STACK_METADATA_TABLE environment variable is missing." ∧
    StartupConfig.signedUrlsModuleCheck envAllMissing =
      Except.error "S3_BUCKET_NAME environment variable is missing." ∧
    StartupConfig.writeModuleCheck envWriteMissingTable = Except.ok () :=
  ⟨fun _ => rfl, rfl, rfl, rfl⟩

/-- Claim C8: for every file of a validated signed-URL request, the
generated key is user/{userId}/{year}/{month}/{token}_{fileName} with the
month zero-padded, the token being the next draw of the uuid generator
(a fresh one per file, in input order), and the response's
{uploadUrl, key} entries appear in input order; distinct draws yield
distinct keys even for identical file metadata. -/
theorem c8_signed_url_keys (cdn : String) (env : GenerateSignedUrls.SignedEnv)
    (now : GenerateSignedUrls.JsDate) (sched : List Nat)
    (files : List GenerateSignedUrls.FileMetadata)
    (signF : String → String → String)
    (hs : ∀ k ct, env.sign k ct = Except.ok (signF k ct)) :
    ∃ rs, GenerateSignedUrls.handler cdn env now sched
        ⟨some (GenerateSignedUrls.ParsedSigned.valid files)⟩ =
        ⟨200, GenerateSignedUrls.SignedBodyJson.data rs cdn⟩ ∧
      rs.length = files.length ∧
      (∀ j : Nat, ∀ fm, files.get? j = some fm →
        rs.get? j = some
          (signF (GenerateSignedUrls.createKey now (env.uuidGen j)
              fm.userId fm.fileName fm.contentType) fm.contentType,
           GenerateSignedUrls.createKey now (env.uuidGen j)
              fm.userId fm.fileName fm.contentType)) ∧
      (∀ i j : Nat, ∀ fm fm', files.get? i = some fm → files.get? j = some fm' →
        fm.userId = fm'.userId → fm.fileName = fm'.fileName →
        env.uuidGen i ≠ env.uuidGen j →
        ∀ u u' k k', rs.get? i = some (u, k) → rs.get? j = some (u', k') →
          k ≠ k') := by
  have ha := GenerateSignedUrls.allOk_signAllFrom env now signF hs files 0
  have hp := JsAsync.promiseAllSched_of_allOk sched _ _ ha
  refine ⟨GenerateSignedUrls.signedPairsFrom env now signF 0 files, ?_, ?_, ?_, ?_⟩
  · unfold GenerateSignedUrls.handler
    simp [hp]
  · exact GenerateSignedUrls.signedPairsFrom_length env now signF files 0
  · intro j fm hj
    have hg := GenerateSignedUrls.signedPairsFrom_get? env now signF files 0 j
    rw [hj] at hg
    simpa using hg
  · intro i j fm fm' hi hj hu hf hne u u' k k' hri hrj
    have hgi := GenerateSignedUrls.signedPairsFrom_get? env now signF files 0 i
    have hgj := GenerateSignedUrls.signedPairsFrom_get? env now signF files 0 j
    rw [hi] at hgi
    rw [hj] at hgj
    have e1 := Option.some.inj (hgi.symm.trans hri)
    have e2 := Option.some.inj (hgj.symm.trans hrj)
    have hk : k = GenerateSignedUrls.createKey now (env.uuidGen (0 + i))
        fm.userId fm.fileName fm.contentType := (congrArg Prod.snd e1).symm
    have hk' : k' = GenerateSignedUrls.createKey now (env.uuidGen (0 + j))
        fm'.userId fm'.fileName fm'.contentType := (congrArg Prod.snd e2).symm
    intro hkk
    rw [hk, hk'] at hkk
    rw [← hu, ← hf] at hkk
    have hnorm : GenerateSignedUrls.createKey now (env.uuidGen (0 + j))
        fm.userId fm.fileName fm'.contentType =
        GenerateSignedUrls.createKey now (env.uuidGen (0 + j))
        fm.userId fm.fileName fm.contentType := rfl
    rw [hnorm] at hkk
    have huu := GenerateSignedUrls.createKey_uuid_inj now fm.userId fm.fileName
      fm.contentType (env.uuidGen (0 + i)) (env.uuidGen (0 + j)) hkk
    apply hne
    simpa using huu

/-- Witness for C8: two files with identical metadata on 2023-01-15; the
first key is user/user123/2023/01/a_testfile.jpg and the two keys
differ. -/
theorem c8_signed_url_keys_witness :
    ∃ rs, GenerateSignedUrls.handler "https://cdn.example.com" signedEnvAB jan2023 []
        ⟨some (GenerateSignedUrls.ParsedSigned.valid [fmTest, fmTest])⟩ =
        ⟨200, GenerateSignedUrls.SignedBodyJson.data rs "https://cdn.example.com"⟩ ∧
      rs.get? 0 = some ("signed:user/user123/2023/01/a_testfile.jpg",
        "user/user123/2023/01/a_testfile.jpg") ∧
      (∀ u u' k k', rs.get? 0 = some (u, k) → rs.get? 1 = some (u', k') → k ≠ k') := by
  obtain ⟨rs, hresp, hlen, hpos, hdist⟩ :=
    c8_signed_url_keys "https://cdn.example.com" signedEnvAB jan2023 [] [fmTest, fmTest]
      (fun k _ => "signed:" ++ k) (fun k ct => rfl)
  refine ⟨rs, hresp, ?_, ?_⟩
  · exact hpos 0 fmTest rfl
  · intro u u' k k' h0 h1
    exact hdist 0 1 fmTest fmTest rfl rfl rfl rfl (by decide) u u' k k' h0 h1

/-- Claim C9: every invocation of each handler resolves to a response
whose statusCode is 200, 400, 404 or 500 (404 possible only for the read
handler), and every non-200 body is exactly a single-message object (the
write handler's body is a single-message object by construction). -/
theorem c9_response_envelope :
    (∀ (now : Int) (env : MediaRead.ReadEnv) (sched : List Nat) (ev : MediaRead.ReadEvent),
       MediaRead.goodReadResponse (MediaRead.handler now env sched ev).1) ∧
    (∀ (env : MediaWrite.WriteEnv) (store : MediaWrite.Store) (ev : MediaWrite.WriteEvent),
       (MediaWrite.handler env store ev).1.statusCode = 200 ∨
       (MediaWrite.handler env store ev).1.statusCode = 400 ∨
       (MediaWrite.handler env store ev).1.statusCode = 500) ∧
    (∀ (cdn : String) (env : GenerateSignedUrls.SignedEnv)
       (now : GenerateSignedUrls.JsDate) (sched : List Nat)
       (ev : GenerateSignedUrls.SignedEvent),
       GenerateSignedUrls.goodSignedResponse
         (GenerateSignedUrls.handler cdn env now sched ev)) :=
  ⟨MediaRead.goodReadResponse_handler, MediaWrite.handler_statusCodes,
   GenerateSignedUrls.goodSignedResponse_handler⟩

/-- Witness for C9: a missing body yields a 400 whose body is a message
object. -/
theorem c9_response_envelope_witness :
    ∃ m, (MediaRead.handler 0 envStacksEmpty [] ⟨none⟩).1.body =
      MediaRead.ReadBodyJson.message m := by
  have h := c9_response_envelope.1 0 envStacksEmpty [] ⟨none⟩
  unfold MediaRead.goodReadResponse at h
  exact h.2 (by decide)
